import Mathlib

set_option autoImplicit false

/-!
# A shallow embedding of the go-wyvern/leego request context and validator middleware

This file embeds, in Lean 4, the parts of the `leego` HTTP framework that the
verified properties talk about:

* `leegoContext` and its methods (`src/context.go`): locale handling
  (`SetLang`/`Language`), positional and named path-parameter lookup
  (`P`/`Param`), the parameter setters, `Reset`, `Redirect`, `File` and
  `ServeContent`.
* the validator middleware (`src/middleware/validator.go`).  That file holds
  two revisions of `ValidatorWithConfig`: the first (its lines 39-63) resolves
  the rule set per request via `validator.Find` and wraps every validation
  error as-is; the second (its lines 185-218) takes the rule set from the
  configuration and translates structured `ParamsError` messages through
  `i18n.Translate` before wrapping.  Both are embedded (`ValidatorWithConfig`
  and `ValidatorWithConfig2`).
* the shared middleware defaults (`src/middleware/middleware.go`):
  `defaultSkipper` and `defaultFormatLeegoError`.

Modelling conventions:

* Go strings are Lean `String`s; `len` and slicing are modelled at character
  granularity, which agrees with Go's byte-level semantics on the ASCII
  locale tags, header names and parameter values involved here.
* Go `nil`-able values (maps, function fields, interface values) are `Option`s;
  a Go run-time panic (nil dereference, index out of range) is modelled by a
  `none` result of the enclosing operation.
* External collaborators (the `validator` rule library, `i18n`, `os`, `mime`,
  `time`) are bundles of abstract functions passed as parameters; the embedded
  code never depends on their internals.
-/

/-- Go `interface{}` values stored in the context's data map and in
`context.WithValue` chains; modelled as a small tagged union. -/
inductive GoValue where
  | str (s : String)
  | int (n : Int)
  deriving DecidableEq, Repr

/-- The `golang.org/x/net/context` carrier held by a `leegoContext`.
`nilContext` is the zero value of the interface field, `background` is
`context.Background()`, and `withValue` is `context.WithValue`. -/
inductive CancelCtx where
  | nilContext
  | background
  | withValue (parent : CancelCtx) (key : GoValue) (val : GoValue)
  deriving DecidableEq, Repr

/-- The handler reference stored in a context.  `nilHandler` is the zero
value, `notFound` is leego's `NotFoundHandler` sentinel installed by `Reset`,
and `custom` stands for any router-matched handler. -/
inductive HandlerRef where
  | nilHandler
  | notFound
  | custom (id : Nat)
  deriving DecidableEq, Repr

/-- An `engine.Request` as far as the embedded code inspects it: its method,
its header and its form parameters (`map[string][]string`). -/
structure Request where
  method : String
  header : List (String × String)
  formParams : List (String × List String)
  deriving DecidableEq, Repr

/-- An `engine.Response` as far as the embedded code mutates it: the header
map, the status written by `WriteHeader`, and the accumulated body. -/
structure Response where
  header : List (String × String)
  status : Option Int
  body : String
  deriving DecidableEq, Repr

/-- An opaque `*logger.Logger` reference. -/
structure Logger where
  id : Nat
  deriving DecidableEq, Repr

/-- The structured field error produced by the external `validator` library
(`*validator.ParamsError`): a message text plus the offending field. -/
structure ParamsError where
  text : String
  field : String
  deriving DecidableEq, Repr

/-- Go `error` values flowing through the embedded code.  `errNotFound` and
`errInvalidRedirectCode` are leego's pre-defined sentinels `ErrNotFound` and
`ErrInvalidRedirectCode`; `paramsError` is the validator library's structured
error; `errMsg` stands for any other error value. -/
inductive GoError where
  | paramsError (p : ParamsError)
  | errNotFound
  | errInvalidRedirectCode
  | errMsg (s : String)
  deriving DecidableEq, Repr

/-- The `leego.LeegoError` is an error interface value; `none` is Go `nil`
(success). -/
def LeegoError := Option GoError
  deriving DecidableEq, Repr

/-- The concrete context type `leegoContext` of `src/context.go` (lines
206-219), field for field.  The `leego` back pointer is kept as an opaque
reference id.  `data` is `Option`al because a Go map field can be `nil`
(the zero value) as well as empty. -/
structure leegoContext where
  context : CancelCtx
  request : Request
  response : Response
  logger : Option Logger
  path : String
  pnames : List String
  pvalues : List String
  paramsMap : List (String × String)
  handler : HandlerRef
  leego : Nat
  lang : String
  data : Option (List (String × GoValue))
  deriving DecidableEq, Repr

/-- The `Language` (src/context.go:224-226): returns the stored locale. -/
def leegoContext.Language (c : leegoContext) : String :=
  c.lang

/-- The `SetLang` (src/context.go:228-235): keeps the first 5 characters of a
long-enough non-empty locale tag, otherwise falls back to `"zh-CN"`. -/
def leegoContext.SetLang (c : leegoContext) (lang : String) : leegoContext :=
  let lang := if lang ≠ "" ∧ 5 ≤ lang.length then String.mk (lang.data.take 5) else "zh-CN"
  { c with lang := lang }

/-- The `SetParamsMap` (src/context.go:237-239). -/
def leegoContext.SetParamsMap (c : leegoContext) (m : List (String × String)) : leegoContext :=
  { c with paramsMap := m }

/-- The `GetParamsMap` (src/context.go:252-254). -/
def leegoContext.GetParamsMap (c : leegoContext) : List (String × String) :=
  c.paramsMap

/-- The `SetLogger` (src/context.go:248-250). -/
def leegoContext.SetLogger (c : leegoContext) (l : Logger) : leegoContext :=
  { c with logger := some l }

/-- The `Path` (src/context.go:296-298). -/
def leegoContext.Path (c : leegoContext) : String :=
  c.path

/-- The `SetPath` (src/context.go:300-302). -/
def leegoContext.SetPath (c : leegoContext) (p : String) : leegoContext :=
  { c with path := p }

/-- The `P` (src/context.go:304-310): positional parameter lookup.  Go only
guards `i < len(c.pnames)` before indexing `c.pvalues[i]`, so a negative `i`,
or an `i` below `len(pnames)` but at or beyond `len(pvalues)`, is an
out-of-range access (a run-time panic, modelled as `none`); an `i` at or
beyond `len(pnames)` leaves the zero value `""`. -/
def leegoContext.P (c : leegoContext) (i : Int) : Option String :=
  let l := c.pnames.length
  if i < (l : Int) then
    if h : 0 ≤ i ∧ i.toNat < c.pvalues.length then
      some (c.pvalues.get ⟨i.toNat, h.2⟩)
    else
      none
  else
    some ""

/-- The loop of `Param` (src/context.go:312-321): scan `pnames` with its
index; at the first name equal to `name` (the `i < l` conjunct of the source
is carried along), read `pvalues[i]` — an out-of-range read panics (`none`);
if no name matches, the zero value `""` is returned. -/
def paramScan (pvalues : List String) (l : Nat) (name : String) :
    Nat → List String → Option String
  | _, [] => some ""
  | i, n :: ns =>
    if n = name ∧ i < l then
      if h : i < pvalues.length then some (pvalues.get ⟨i, h⟩) else none
    else
      paramScan pvalues l name (i + 1) ns

/-- The `Param` (src/context.go:312-321): named parameter lookup by linear scan. -/
def leegoContext.Param (c : leegoContext) (name : String) : Option String :=
  paramScan c.pvalues c.pnames.length name 0 c.pnames

/-- The `ParamNames` (src/context.go:323-325). -/
def leegoContext.ParamNames (c : leegoContext) : List String :=
  c.pnames

/-- The `SetParamNames` (src/context.go:327-329): replaces the name sequence. -/
def leegoContext.SetParamNames (c : leegoContext) (names : List String) : leegoContext :=
  { c with pnames := names }

/-- The `ParamValues` (src/context.go:331-333). -/
def leegoContext.ParamValues (c : leegoContext) : List String :=
  c.pvalues

/-- The `SetParamValues` (src/context.go:335-337): replaces the value sequence. -/
def leegoContext.SetParamValues (c : leegoContext) (values : List String) : leegoContext :=
  { c with pvalues := values }

/-- The `Set` (src/context.go:375-377): `context.WithValue` layering. -/
def leegoContext.Set (c : leegoContext) (key val : GoValue) : leegoContext :=
  { c with context := CancelCtx.withValue c.context key val }

/-- The `context.Context.Value` lookup on the embedded carrier (a `Value` call on
the nil zero value would panic in Go; it is unreachable from the embedded
operations and modelled as `none`). -/
def CancelCtx.value : CancelCtx → GoValue → Option GoValue
  | CancelCtx.nilContext, _ => none
  | CancelCtx.background, _ => none
  | CancelCtx.withValue p k v, key => if k = key then some v else p.value key

/-- The `Get` (src/context.go:379-381). -/
def leegoContext.Get (c : leegoContext) (key : GoValue) : Option GoValue :=
  c.context.value key

/-- Insert-or-replace on an association list, the write of a Go map. -/
def assocSet (m : List (String × GoValue)) (key : String) (v : GoValue) :
    List (String × GoValue) :=
  if m.any (fun p => p.1 = key) then
    m.map (fun p => if p.1 = key then (key, v) else p)
  else
    m ++ [(key, v)]

/-- The `SetData` (src/context.go:256-258): `c.data[key] = data`.  Assigning into
a nil Go map panics, hence the `none` result when `data` is nil. -/
def leegoContext.SetData (c : leegoContext) (key : String) (v : GoValue) :
    Option leegoContext :=
  c.data.map fun m => { c with data := some (assocSet m key v) }

/-- The `GetData` (src/context.go:260-262): reading a nil Go map yields the zero
value, a nil interface (`none`). -/
def leegoContext.GetData (c : leegoContext) (key : String) : Option GoValue :=
  (c.data.getD []).lookup key

/-- The `Reset` (src/context.go:563-569): reinitializes the cancellation carrier,
installs the given request/response, resets the handler to the `NotFoundHandler`
sentinel and replaces the data map with a fresh empty one.  No other field is
touched. -/
def leegoContext.Reset (c : leegoContext) (req : Request) (res : Response) : leegoContext :=
  { c with
    context := CancelCtx.background
    request := req
    response := res
    handler := HandlerRef.notFound
    data := some [] }

/-- The Go zero value of `leegoContext` (all strings empty, slices and maps
nil, interface fields nil). -/
def zeroLeegoContext : leegoContext :=
  { context := CancelCtx.nilContext
    request := { method := "", header := [], formParams := [] }
    response := { header := [], status := none, body := "" }
    logger := none
    path := ""
    pnames := []
    pvalues := []
    paramsMap := []
    handler := HandlerRef.nilHandler
    leego := 0
    lang := ""
    data := none }

/-! ## Response writing, `Redirect`, `File` and `ServeContent` -/

/-- Header names and MIME constants of the repository's constants file (not
part of the extracted sources); the standard HTTP names. -/
def HeaderContentType : String := "Content-Type"

/-- The `Content-Length` header name. -/
def HeaderContentLength : String := "Content-Length"

/-- The `If-Modified-Since` header name. -/
def HeaderIfModifiedSince : String := "If-Modified-Since"

/-- The `Last-Modified` header name. -/
def HeaderLastModified : String := "Last-Modified"

/-- The `Location` header name. -/
def HeaderLocation : String := "Location"

/-- The `application/octet-stream`, leego's `MIMEOctetStream`. -/
def MIMEOctetStream : String := "application/octet-stream"

/-- The `http.StatusMultipleChoices` (300); the identifier carries the source's
spelling, an artifact of the repository-wide `echo` → `leego` rename. -/
def StatusMultiplleegoices : Int := 300

/-- The `http.StatusTemporaryRedirect` (307). -/
def StatusTemporaryRedirect : Int := 307

/-- The `header.Get`: first entry for the key, or the empty string. -/
def headerGet (h : List (String × String)) (k : String) : String :=
  (((h.find? (fun p => p.1 = k)).map Prod.snd)).getD ""

/-- The `header.Set`: replace any entry for the key by the single new one. -/
def headerSet (h : List (String × String)) (k v : String) : List (String × String) :=
  (h.filter (fun p => ¬ p.1 = k)) ++ [(k, v)]

/-- The `header.Del`: drop every entry for the key. -/
def headerDel (h : List (String × String)) (k : String) : List (String × String) :=
  h.filter (fun p => ¬ p.1 = k)

/-- The `Response.Header().Set` on the embedded response. -/
def Response.setHeader (res : Response) (k v : String) : Response :=
  { res with header := headerSet res.header k v }

/-- The `Response.WriteHeader`. -/
def Response.writeHeader (res : Response) (code : Int) : Response :=
  { res with status := some code }

/-- The `Response.Write` (the body copy of `io.Copy`). -/
def Response.write (res : Response) (s : String) : Response :=
  { res with body := res.body ++ s }

/-- The `NoContent` (src/context.go:502-505): status only, nil error. -/
def leegoContext.NoContent (c : leegoContext) (code : Int) : LeegoError × leegoContext :=
  ((none : Option GoError), { c with response := c.response.writeHeader code })

/-- The `Redirect` (src/context.go:507-514): a code outside
`[StatusMultipleChoices, StatusTemporaryRedirect]` returns the sentinel
`ErrInvalidRedirectCode` before anything is written; otherwise the `Location`
header and the status are written and nil is returned. -/
def leegoContext.Redirect (c : leegoContext) (code : Int) (url : String) :
    LeegoError × leegoContext :=
  if code < StatusMultiplleegoices ∨ StatusTemporaryRedirect < code then
    (some GoError.errInvalidRedirectCode, c)
  else
    let res := (c.response.setHeader HeaderLocation url).writeHeader code
    ((none : Option GoError), { c with response := res })

/-- The `os.FileInfo` as far as `File`/`ServeContent` read it; `modTime` is an
abstract instant (Go `time.Time`), modelled as an integer timeline. -/
structure FileInfo where
  name : String
  isDir : Bool
  modTime : Int
  deriving DecidableEq, Repr

/-- An opened `*os.File`: the result of its `Stat` call and its content. -/
structure GoFile where
  stat : Except GoError FileInfo
  content : String

/-- The `os`/`filepath` collaborators consumed by `File`. -/
structure OsLib where
  openFile : String → Option GoFile
  joinPath : String → String → String

/-- The `time`/`mime`/`filepath` collaborators consumed by `ServeContent` and
`ContentTypeByExtension`: `time.Parse(http.TimeFormat, s)` (`none` on error),
`t.UTC().Format(http.TimeFormat)`, `mime.TypeByExtension` and `filepath.Ext`. -/
structure StdLib where
  parseHTTPTime : String → Option Int
  formatHTTPTime : Int → String
  typeByExtension : String → String
  ext : String → String

/-- One second on the `time.Time` timeline of the model
(`t.Add(1*time.Second)`). -/
def oneSecond : Int := 1000000000

/-- The `ContentTypeByExtension` (src/context.go:556-561). -/
def ContentTypeByExtension (std : StdLib) (name : String) : String :=
  let t := std.typeByExtension (std.ext name)
  if t = "" then MIMEOctetStream else t

/-- The `ServeContent` (src/context.go:536-551): if the request carries a parsable
`If-Modified-Since` no later than one second before `modtime`, strip the
content headers and answer `304`; otherwise send the content with
`Content-Type`, `Last-Modified` and status `200`. -/
def leegoContext.ServeContent (std : StdLib) (c : leegoContext)
    (content : String) (name : String) (modtime : Int) : LeegoError × leegoContext :=
  let req := c.request
  let res := c.response
  let notModified : Bool :=
    match std.parseHTTPTime (headerGet req.header HeaderIfModifiedSince) with
    | some t => decide (modtime < t + oneSecond)
    | none => false
  if notModified then
    let res := { res with header := headerDel (headerDel res.header HeaderContentType) HeaderContentLength }
    leegoContext.NoContent { c with response := res } 304
  else
    let res := res.setHeader HeaderContentType (ContentTypeByExtension std name)
    let res := res.setHeader HeaderLastModified (std.formatHTTPTime modtime)
    let res := res.writeHeader 200
    let res := res.write content
    ((none : Option GoError), { c with response := res })

/-- The `File` (src/context.go:473-492): a failed `os.Open` yields the sentinel
`ErrNotFound`; on a directory, `index.html` inside it is opened instead (again
`ErrNotFound` on failure, and a failed re-`Stat` is returned as-is); otherwise
the content is served via `ServeContent`.  The error of the first `Stat` is
discarded by the source (`fi, _ := f.Stat()`), so a failing first `Stat`
dereferences a nil `FileInfo` (modelled `none`). -/
def leegoContext.File (std : StdLib) (os : OsLib) (c : leegoContext) (file : String) :
    Option (LeegoError × leegoContext) :=
  match os.openFile file with
  | none => some (some GoError.errNotFound, c)
  | some f =>
    match f.stat with
    | Except.error _ => none
    | Except.ok fi =>
      if fi.isDir then
        let file := os.joinPath file "index.html"
        match os.openFile file with
        | none => some (some GoError.errNotFound, c)
        | some f =>
          match f.stat with
          | Except.error e => some (some e, c)
          | Except.ok fi => some (leegoContext.ServeContent std c f.content fi.name fi.modTime)
      else
        some (leegoContext.ServeContent std c f.content fi.name fi.modTime)

/-! ## The middleware layer (`src/middleware/middleware.go`, `validator.go`) -/

/-- The `leego.HandlerFunc`: a handler consumes the context and produces a
`LeegoError`; since Go handlers mutate the context in place, the embedded
handler also returns the context it leaves behind. -/
def HandlerFunc := leegoContext → LeegoError × leegoContext

/-- The `middleware.Skipper` (src/middleware/middleware.go:11). -/
def Skipper := leegoContext → Bool

/-- The `defaultSkipper` (src/middleware/middleware.go:16-18): never skip. -/
def defaultSkipper : Skipper := fun _ => false

/-- The `defaultFormatLeegoError` (src/middleware/middleware.go:20-22): the
identity wrap — the raw error is returned as the `LeegoError`. -/
def defaultFormatLeegoError (err : GoError) (_middlewareName : String) : LeegoError :=
  some err

/-- An opaque `*validator.Validator` rule set of the external library. -/
structure Validator where
  id : Nat
  deriving DecidableEq, Repr

/-- The external `github.com/go-wyvern/validator` library as consumed by the
middleware: `Find` resolves a rule set by method and path (`nil` when none is
registered), `Validate` checks the form parameters, `UrlValidator` checks the
path-parameter map (`nil` error on success), and `Tr` is the
`(*ParamsError).Tr()` rendering of a structured error. -/
structure ValidatorLib where
  Find : String → String → Option Validator
  Validate : List (String × List String) → Validator → Option GoError
  UrlValidator : List (String × String) → Validator → Option GoError
  Tr : ParamsError → GoError

/-- The external `github.com/go-wyvern/i18n` library: `Translate text locale`. -/
structure I18nLib where
  Translate : String → String → String

/-- The `middleware.ValidateName` (src/middleware/validator.go:8). -/
def ValidateName : String := "Validate"

/-- The `middleware.ValidatorConfig` (src/middleware/validator.go:11-19).  The
`Skipper` and `FormatLeegoError` fields are Go function values and may be
`nil`, hence the `Option`s. -/
structure ValidatorConfig where
  Skipper : Option Skipper
  FormatLeegoError : Option (GoError → String → LeegoError)
  Name : String
  Validate : Option Validator

/-- The `middleware.DefaultValidatorConfig` (src/middleware/validator.go:22-28). -/
def DefaultValidatorConfig : ValidatorConfig :=
  { Skipper := some defaultSkipper
    FormatLeegoError := some defaultFormatLeegoError
    Name := ValidateName
    Validate := none }

/-- The `ValidatorWithConfig`, first revision (src/middleware/validator.go:39-63):
only a nil `Skipper` is replaced by the default; the rule set is looked up per
request by `validator.Find(method, path)` and its absence passes through; a
body- or path-validation error is handed to `config.FormatLeegoError` as-is
(a nil formatter is a nil-function call, modelled `none`) and `next` is not
invoked; otherwise `next` runs. -/
def ValidatorWithConfig (lib : ValidatorLib) (config : ValidatorConfig) :
    HandlerFunc → leegoContext → Option (LeegoError × leegoContext) :=
  let config :=
    if config.Skipper.isNone then
      { config with Skipper := DefaultValidatorConfig.Skipper }
    else config
  fun next c =>
    match config.Skipper with
    | none => none
    | some skipper =>
      if skipper c then some (next c)
      else
        match lib.Find c.request.method c.Path with
        | none => some (next c)
        | some v =>
          match lib.Validate c.request.formParams v with
          | some err => config.FormatLeegoError.map (fun f => (f err config.Name, c))
          | none =>
            match lib.UrlValidator c.GetParamsMap v with
            | some err => config.FormatLeegoError.map (fun f => (f err config.Name, c))
            | none => some (next c)

/-- The `ValidatorWithConfig`, second revision (src/middleware/validator.go:185-218
of the concatenated file): the rule set comes from `config.Validate` (nil
passes through); a failing validation whose error is a structured
`*validator.ParamsError` first has its `Text` replaced by
`i18n.Translate(text, c.Language())` and is wrapped via `pErr.Tr()`, while any
other error is wrapped as-is. -/
def ValidatorWithConfig2 (lib : ValidatorLib) (i18n : I18nLib) (config : ValidatorConfig) :
    HandlerFunc → leegoContext → Option (LeegoError × leegoContext) :=
  let config :=
    if config.Skipper.isNone then
      { config with Skipper := DefaultValidatorConfig.Skipper }
    else config
  fun next c =>
    match config.Skipper with
    | none => none
    | some skipper =>
      if skipper c then some (next c)
      else
        match config.Validate with
        | none => some (next c)
        | some v =>
          match lib.Validate c.request.formParams v with
          | some (GoError.paramsError p) =>
            let p := { p with text := i18n.Translate p.text c.Language }
            config.FormatLeegoError.map (fun f => (f (lib.Tr p) config.Name, c))
          | some err => config.FormatLeegoError.map (fun f => (f err config.Name, c))
          | none =>
            match lib.UrlValidator c.GetParamsMap v with
            | some (GoError.paramsError p) =>
              let p := { p with text := i18n.Translate p.text c.Language }
              config.FormatLeegoError.map (fun f => (f (lib.Tr p) config.Name, c))
            | some err => config.FormatLeegoError.map (fun f => (f err config.Name, c))
            | none => some (next c)

/-! ## Shared concrete instances used by witnesses and counterexamples -/

/-- A concrete request. -/
def reqEx : Request := { method := "GET", header := [], formParams := [] }

/-- A concrete response. -/
def resEx : Response := { header := [], status := none, body := "" }

/-- A context that already carries one path parameter. -/
def paramCtx : leegoContext :=
  { zeroLeegoContext with pnames := ["id"], pvalues := ["42"] }

/-- The round-trip context of the spec:
`SetParamNames(["id"])` followed by `SetParamValues(["42"])`. -/
def roundTripCtx : leegoContext :=
  (zeroLeegoContext.SetParamNames ["id"]).SetParamValues ["42"]

/-! ## Claims about the context -/

/-- C1: for every context and string `s`, `SetLang s` followed by `Language`
yields the first 5 characters of `s` when `s` has length at least 5 and the
fallback `"zh-CN"` otherwise (in particular for empty or short `s`); hence
`SetLang "en"` reads back `"zh-CN"`, `SetLang "en-US-extra"` reads back
`"en-US"`, and the stored locale is always exactly 5 characters long. -/
theorem setLang_normalizes (c : leegoContext) (s : String) :
    (c.SetLang s).Language
        = (if 5 ≤ s.length then String.mk (s.data.take 5) else "zh-CN")
    ∧ ((c.SetLang s).Language).length = 5
    ∧ (c.SetLang "en").Language = "zh-CN"
    ∧ (c.SetLang "en-US-extra").Language = "en-US" := by
  have hne : 5 ≤ s.length → s ≠ "" := by
    intro h he
    rw [he] at h
    simp [String.length] at h
  have hmain : (c.SetLang s).Language
      = (if 5 ≤ s.length then String.mk (s.data.take 5) else "zh-CN") := by
    by_cases h : 5 ≤ s.length
    · simp [leegoContext.SetLang, leegoContext.Language, h, hne h]
    · simp [leegoContext.SetLang, leegoContext.Language, h]
  refine ⟨hmain, ?_, rfl, rfl⟩
  rw [hmain]
  by_cases h : 5 ≤ s.length
  · rw [if_pos h]
    show (s.data.take 5).length = 5
    rw [List.length_take]
    have : s.length = s.data.length := rfl
    omega
  · rw [if_neg h]
    decide

/-- C5 (counterexample): `Reset` does not clear the path parameters, so the
post-`Reset` state of a context that carried a parameter is not free of path
parameters as the claim requires. -/
theorem reset_params_counterexample :
    (paramCtx.Reset reqEx resEx).ParamNames ≠ ([] : List String) := by
  decide

/-- C5 (amended): `Reset` is idempotent — a second `Reset` with the same
request/response pair changes nothing — and the resulting state has an empty
non-nil data mapping, the not-found sentinel handler, a fresh background
cancellation carrier and the given request/response handles; the path
parameters, however, are carried over unchanged rather than cleared. -/
theorem reset_idempotent_amended (c : leegoContext) (req : Request) (res : Response) :
    (c.Reset req res).Reset req res = c.Reset req res
    ∧ (c.Reset req res).data = some []
    ∧ (c.Reset req res).handler = HandlerRef.notFound
    ∧ (c.Reset req res).context = CancelCtx.background
    ∧ (c.Reset req res).request = req
    ∧ (c.Reset req res).response = res
    ∧ (c.Reset req res).pnames = c.pnames
    ∧ (c.Reset req res).pvalues = c.pvalues :=
  ⟨rfl, rfl, rfl, rfl, rfl, rfl, rfl, rfl⟩

/-- C6 (counterexample): `P` is not total — on a context holding one
parameter, the index `-1` passes the `i < len(pnames)` guard and indexes
`pvalues` out of range (a run-time panic, `none`), instead of returning the
empty string the claim promises for every out-of-bounds index. -/
theorem p_negative_index_counterexample :
    paramCtx.P (-1) ≠ some "" := by
  decide

/-- C6 (amended): `P i` returns the empty string whenever `i` is at least the
number of stored names, and returns `pvalues[i]` for `0 ≤ i < len(pnames)`
with `i` inside `pvalues`; the round-trip facts hold:
after `SetParamNames ["id"]` and `SetParamValues ["42"]`, `Param "id"`,
`P 0` and `P 5` give `"42"`, `"42"` and `""`.  `P` is not total, though:
a negative index (or an index reaching past `pvalues`) is an out-of-range
access rather than an empty-string result. -/
theorem p_param_amended (c : leegoContext) (i : Int) :
    ((c.pnames.length : Int) ≤ i → c.P i = some "")
    ∧ (0 ≤ i → i < (c.pnames.length : Int) →
        ∀ h2 : i.toNat < c.pvalues.length, c.P i = some (c.pvalues.get ⟨i.toNat, h2⟩))
    ∧ (roundTripCtx.Param "id" = some "42"
        ∧ roundTripCtx.P 0 = some "42" ∧ roundTripCtx.P 5 = some "") := by
  refine ⟨?_, ?_, by decide, by decide, by decide⟩
  · intro h
    simp only [leegoContext.P]
    rw [if_neg (by omega)]
  · intro h1 hlt h2
    simp only [leegoContext.P]
    rw [if_pos hlt, dif_pos ⟨h1, h2⟩]

/-- C6 (witness for the amended theorem): the amended statement applied at
the round-trip context and at the concrete indices 5 and 0. -/
theorem p_param_amended_witness :
    roundTripCtx.P 5 = some ""
    ∧ roundTripCtx.P 0 = some (roundTripCtx.pvalues.get ⟨0, by decide⟩) :=
  ⟨(p_param_amended roundTripCtx 5).1 (by decide),
   (p_param_amended roundTripCtx 0).2.1 (by decide) (by decide) (by decide)⟩

/-- C7 (counterexample): `SetParamNames` replaces only the name sequence, so
it can break the equal-length property the claim says every operation
preserves: starting from the zero context (lengths 0 = 0), installing one
name leaves one name against zero values. -/
theorem setParamNames_length_counterexample :
    (zeroLeegoContext.SetParamNames ["id"]).pnames.length
      ≠ (zeroLeegoContext.SetParamNames ["id"]).pvalues.length := by
  decide

/-- C7 (amended): starting from a context whose name and value sequences have
equal length, `Reset` preserves the equality, `SetParamNames` and
`SetParamValues` preserve it exactly when the supplied sequence matches the
untouched counterpart's length, and installing names and values as a
matching pair restores it; the individual setters alone do not maintain
the invariant. -/
theorem param_length_invariant_amended (c : leegoContext)
    (names values : List String) (req : Request) (res : Response)
    (h : c.pnames.length = c.pvalues.length) :
    ((c.Reset req res).pnames.length = (c.Reset req res).pvalues.length)
    ∧ (names.length = c.pvalues.length →
        (c.SetParamNames names).pnames.length = (c.SetParamNames names).pvalues.length)
    ∧ (values.length = c.pnames.length →
        (c.SetParamValues values).pnames.length = (c.SetParamValues values).pvalues.length)
    ∧ (names.length = values.length →
        ((c.SetParamNames names).SetParamValues values).pnames.length
          = ((c.SetParamNames names).SetParamValues values).pvalues.length) := by
  refine ⟨h, ?_, ?_, ?_⟩ <;>
    · intro hl
      simp [leegoContext.SetParamNames, leegoContext.SetParamValues]
      omega

/-- C7 (witness for the amended theorem): the amended statement applied at
the zero context with the matching pair `["id"]`/`["42"]`. -/
theorem param_length_invariant_amended_witness :
    ((zeroLeegoContext.SetParamNames ["id"]).SetParamValues ["42"]).pnames.length
      = ((zeroLeegoContext.SetParamNames ["id"]).SetParamValues ["42"]).pvalues.length :=
  (param_length_invariant_amended zeroLeegoContext ["id"] ["42"] reqEx resEx rfl).2.2.2 rfl

/-- C10: `Reset` reinitializes only the cancellation carrier, the
request/response handles, the matched handler and the data map; the path, the
parameter names and values, the params map, the locale and the logger
override keep their previous values — in particular `Language` still returns
the previous request's locale — and on a context whose locale was never set
(the zero value) `Language` reads back the empty string, not `"zh-CN"`. -/
theorem reset_frame (c : leegoContext) (req : Request) (res : Response) :
    (c.Reset req res).path = c.path
    ∧ (c.Reset req res).pnames = c.pnames
    ∧ (c.Reset req res).pvalues = c.pvalues
    ∧ (c.Reset req res).paramsMap = c.paramsMap
    ∧ (c.Reset req res).lang = c.lang
    ∧ (c.Reset req res).logger = c.logger
    ∧ (c.Reset req res).leego = c.leego
    ∧ (c.Reset req res).Language = c.Language
    ∧ (c.Reset req res).context = CancelCtx.background
    ∧ (c.Reset req res).request = req
    ∧ (c.Reset req res).response = res
    ∧ (c.Reset req res).handler = HandlerRef.notFound
    ∧ (c.Reset req res).data = some []
    ∧ zeroLeegoContext.Language = ""
    ∧ ("" : String) ≠ "zh-CN" :=
  ⟨rfl, rfl, rfl, rfl, rfl, rfl, rfl, rfl, rfl, rfl, rfl, rfl, rfl, rfl, by decide⟩

/-! ## Claims about the validator middleware -/

/-- A rule set the concrete validator library returns. -/
def vEx : Validator := { id := 0 }

/-- A concrete validator library whose body validation always fails with an
unstructured error. -/
def libAllFail : ValidatorLib :=
  { Find := fun _ _ => some vEx
    Validate := fun _ _ => some (GoError.errMsg "bad")
    UrlValidator := fun _ _ => none
    Tr := GoError.paramsError }

/-- A concrete validator library whose body validation fails with a
structured `ParamsError`. -/
def libParamsFail : ValidatorLib :=
  { Find := fun _ _ => some vEx
    Validate := fun _ _ => some (GoError.paramsError { text := "required", field := "name" })
    UrlValidator := fun _ _ => none
    Tr := GoError.paramsError }

/-- A concrete validator library without any registered rule. -/
def libNoRule : ValidatorLib :=
  { Find := fun _ _ => none
    Validate := fun _ _ => some (GoError.errMsg "bad")
    UrlValidator := fun _ _ => none
    Tr := GoError.paramsError }

/-- A concrete translator that brackets the text with the locale. -/
def i18nEx : I18nLib :=
  { Translate := fun t locale => locale ++ ":" ++ t }

/-- A terminal handler that succeeds and marks the context's handler slot, so
that its effect on the context is observable. -/
def nextMark : HandlerFunc :=
  fun c => ((none : Option GoError), { c with handler := HandlerRef.custom 7 })

/-- A configuration whose skip predicate always fires. -/
def skipTrueConfig : ValidatorConfig :=
  { Skipper := some (fun _ => true)
    FormatLeegoError := some defaultFormatLeegoError
    Name := ValidateName
    Validate := some vEx }

/-- A configuration with no skip predicate and the default formatter. -/
def plainConfig : ValidatorConfig :=
  { Skipper := none
    FormatLeegoError := some defaultFormatLeegoError
    Name := ValidateName
    Validate := some vEx }

/-- A configuration with neither a skip predicate nor a formatter. -/
def nilFmtConfig : ValidatorConfig :=
  { Skipper := none
    FormatLeegoError := none
    Name := ValidateName
    Validate := some vEx }

/-- C2: when the configured skip predicate returns true on the context, the
handler built by either revision of `ValidatorWithConfig` returns exactly
`next c` — the same error value and the same resulting context that `next`
itself produces — so the middleware is observationally absent from the
chain. -/
theorem validator_skip_transparent (lib : ValidatorLib) (i18n : I18nLib)
    (config : ValidatorConfig) (s : Skipper) (hs : config.Skipper = some s)
    (next : HandlerFunc) (c : leegoContext) (h : s c = true) :
    ValidatorWithConfig lib config next c = some (next c)
    ∧ ValidatorWithConfig2 lib i18n config next c = some (next c) := by
  constructor <;>
    simp [ValidatorWithConfig, ValidatorWithConfig2, hs, h]

/-- C2 (witness): the skip-transparency theorem at a concrete library,
configuration, handler and context. -/
theorem validator_skip_transparent_witness :
    ValidatorWithConfig libAllFail skipTrueConfig nextMark zeroLeegoContext
        = some (nextMark zeroLeegoContext)
    ∧ ValidatorWithConfig2 libAllFail i18nEx skipTrueConfig nextMark zeroLeegoContext
        = some (nextMark zeroLeegoContext) :=
  validator_skip_transparent libAllFail i18nEx skipTrueConfig _ rfl nextMark
    zeroLeegoContext rfl

/-- C3: on a non-skipped invocation of the first-revision middleware, a nil
result of the per-request rule lookup passes straight through to `next`
(absence of a rule is not an error); and when body validation or
path-parameter validation fails, the middleware returns the formatted
error with the context untouched, and the result does not depend on `next`
at all — `next` is never invoked. -/
theorem validator_rule_lookup_and_short_circuit (lib : ValidatorLib)
    (config : ValidatorConfig) (c : leegoContext)
    (hskip : (config.Skipper.getD defaultSkipper) c = false) :
    (lib.Find c.request.method c.Path = none →
      ∀ next, ValidatorWithConfig lib config next c = some (next c))
    ∧ (∀ v err f, lib.Find c.request.method c.Path = some v →
        config.FormatLeegoError = some f →
        lib.Validate c.request.formParams v = some err →
        ∀ next, ValidatorWithConfig lib config next c = some (f err config.Name, c))
    ∧ (∀ v err f, lib.Find c.request.method c.Path = some v →
        config.FormatLeegoError = some f →
        lib.Validate c.request.formParams v = none →
        lib.UrlValidator c.GetParamsMap v = some err →
        ∀ next, ValidatorWithConfig lib config next c = some (f err config.Name, c)) := by
  cases hS : config.Skipper with
  | none =>
    refine ⟨fun hfind next => ?_, fun v err f hfind hf hval next => ?_,
        fun v err f hfind hf hval hurl next => ?_⟩
    · simp [ValidatorWithConfig, hS, DefaultValidatorConfig, defaultSkipper, hfind]
    · simp [ValidatorWithConfig, hS, DefaultValidatorConfig, defaultSkipper,
        hfind, hf, hval]
    · simp [ValidatorWithConfig, hS, DefaultValidatorConfig, defaultSkipper,
        hfind, hf, hval, hurl]
  | some s =>
    rw [hS] at hskip
    simp only [Option.getD_some] at hskip
    refine ⟨fun hfind next => ?_, fun v err f hfind hf hval next => ?_,
        fun v err f hfind hf hval hurl next => ?_⟩
    · simp [ValidatorWithConfig, hS, hskip, hfind]
    · simp [ValidatorWithConfig, hS, hskip, hfind, hf, hval]
    · simp [ValidatorWithConfig, hS, hskip, hfind, hf, hval, hurl]

/-- C3 (witness): with no rule registered the terminal handler runs, and with
a failing body validation the formatted error comes back with the context
unchanged, at concrete instances. -/
theorem validator_rule_lookup_and_short_circuit_witness :
    ValidatorWithConfig libNoRule plainConfig nextMark zeroLeegoContext
        = some (nextMark zeroLeegoContext)
    ∧ ValidatorWithConfig libAllFail plainConfig nextMark zeroLeegoContext
        = some (defaultFormatLeegoError (GoError.errMsg "bad") plainConfig.Name,
            zeroLeegoContext) :=
  ⟨(validator_rule_lookup_and_short_circuit libNoRule plainConfig zeroLeegoContext
      rfl).1 rfl nextMark,
   (validator_rule_lookup_and_short_circuit libAllFail plainConfig zeroLeegoContext
      rfl).2.1 vEx (GoError.errMsg "bad") defaultFormatLeegoError rfl rfl rfl nextMark⟩

/-- C4: in the second-revision middleware (the cited translation code), a
validation failure that is a structured `ParamsError` has its message text
run through `i18n.Translate` with the context's locale before the `Tr`
rendering is wrapped by the configured formatter; a failure without the
structured shape is wrapped as-is and the result does not depend on the
translator at all — translation is never attempted on it.  Both the
body-validation and the path-parameter-validation failure sites behave this
way. -/
theorem validator_translates_structured_only (lib : ValidatorLib)
    (i18n : I18nLib) (config : ValidatorConfig)
    (f : GoError → String → LeegoError) (hf : config.FormatLeegoError = some f)
    (v : Validator) (hv : config.Validate = some v)
    (c : leegoContext) (s : Skipper) (hs : config.Skipper = some s)
    (hskip : s c = false) (next : HandlerFunc) :
    (∀ p, lib.Validate c.request.formParams v = some (GoError.paramsError p) →
      ValidatorWithConfig2 lib i18n config next c
        = some (f (lib.Tr { p with text := i18n.Translate p.text c.Language })
            config.Name, c))
    ∧ (∀ err, lib.Validate c.request.formParams v = some err →
        (∀ p, err ≠ GoError.paramsError p) →
        ∀ j : I18nLib, ValidatorWithConfig2 lib j config next c
          = some (f err config.Name, c))
    ∧ (∀ p, lib.Validate c.request.formParams v = none →
        lib.UrlValidator c.GetParamsMap v = some (GoError.paramsError p) →
        ValidatorWithConfig2 lib i18n config next c
          = some (f (lib.Tr { p with text := i18n.Translate p.text c.Language })
              config.Name, c))
    ∧ (∀ err, lib.Validate c.request.formParams v = none →
        lib.UrlValidator c.GetParamsMap v = some err →
        (∀ p, err ≠ GoError.paramsError p) →
        ∀ j : I18nLib, ValidatorWithConfig2 lib j config next c
          = some (f err config.Name, c)) := by
  refine ⟨fun p hval => ?_, fun err hval hne j => ?_,
      fun p hval hurl => ?_, fun err hval hurl hne j => ?_⟩
  · simp [ValidatorWithConfig2, hs, hskip, hv, hval, hf]
  · cases err with
    | paramsError p => exact absurd rfl (hne p)
    | errNotFound => simp [ValidatorWithConfig2, hs, hskip, hv, hval, hf]
    | errInvalidRedirectCode => simp [ValidatorWithConfig2, hs, hskip, hv, hval, hf]
    | errMsg m => simp [ValidatorWithConfig2, hs, hskip, hv, hval, hf]
  · simp [ValidatorWithConfig2, hs, hskip, hv, hval, hurl, hf]
  · cases err with
    | paramsError p => exact absurd rfl (hne p)
    | errNotFound => simp [ValidatorWithConfig2, hs, hskip, hv, hval, hurl, hf]
    | errInvalidRedirectCode => simp [ValidatorWithConfig2, hs, hskip, hv, hval, hurl, hf]
    | errMsg m => simp [ValidatorWithConfig2, hs, hskip, hv, hval, hurl, hf]

/-- C4 (witness): the two-path theorem at concrete instances — a structured
failure comes back with its text translated under the context's locale, an
unstructured one comes back untouched. -/
theorem validator_translates_structured_only_witness :
    ValidatorWithConfig2 libParamsFail i18nEx
        { plainConfig with Skipper := some defaultSkipper } nextMark paramCtx
      = some (defaultFormatLeegoError
          (GoError.paramsError
            { text := i18nEx.Translate "required" paramCtx.Language, field := "name" })
          ValidateName, paramCtx)
    ∧ ValidatorWithConfig2 libAllFail i18nEx
        { plainConfig with Skipper := some defaultSkipper } nextMark paramCtx
      = some (defaultFormatLeegoError (GoError.errMsg "bad") ValidateName, paramCtx) :=
  ⟨(validator_translates_structured_only libParamsFail i18nEx
      { plainConfig with Skipper := some defaultSkipper } defaultFormatLeegoError rfl
      vEx rfl paramCtx defaultSkipper rfl rfl nextMark).1
      { text := "required", field := "name" } rfl,
   (validator_translates_structured_only libAllFail i18nEx
      { plainConfig with Skipper := some defaultSkipper } defaultFormatLeegoError rfl
      vEx rfl paramCtx defaultSkipper rfl rfl nextMark).2.1
      (GoError.errMsg "bad") rfl (fun p h => by cases h) i18nEx⟩

/-- C8 (counterexample): `ValidatorWithConfig` never replaces a nil
`FormatLeegoError`.  With the formatter unset and a failing validation, the
built handler calls a nil function (a crash, modelled `none`) instead of
wrapping the raw error the way the identity default formatter would. -/
theorem validator_nil_formatter_counterexample :
    ValidatorWithConfig libAllFail nilFmtConfig nextMark zeroLeegoContext = none
    ∧ (none : Option (LeegoError × leegoContext))
        ≠ some (defaultFormatLeegoError (GoError.errMsg "bad") ValidateName,
            zeroLeegoContext) := by
  constructor
  · decide
  · decide

/-- C8 (amended): an unset skip predicate is indeed replaced by the
constant-false default, so the middleware behaves as with the explicit
never-skip predicate; the identity default formatter exists
(`defaultFormatLeegoError` returns the raw error and is the
`DefaultValidatorConfig` value) but `ValidatorWithConfig` does not install
it — with the formatter unset, a validation failure dereferences a nil
function instead of being wrapped. -/
theorem validator_defaults_amended (lib : ValidatorLib) (config : ValidatorConfig)
    (next : HandlerFunc) (c : leegoContext) :
    (config.Skipper = none →
      ValidatorWithConfig lib config next c
        = ValidatorWithConfig lib { config with Skipper := some defaultSkipper } next c)
    ∧ (∀ err n, defaultFormatLeegoError err n = some err)
    ∧ DefaultValidatorConfig.FormatLeegoError = some defaultFormatLeegoError
    ∧ (config.FormatLeegoError = none → config.Skipper = none →
        ∀ v err, lib.Find c.request.method c.Path = some v →
          lib.Validate c.request.formParams v = some err →
          ValidatorWithConfig lib config next c = none) := by
  refine ⟨fun hS => ?_, fun err n => rfl, rfl, fun hf hS v err hfind hval => ?_⟩
  · simp [ValidatorWithConfig, hS, DefaultValidatorConfig]
  · simp [ValidatorWithConfig, hS, DefaultValidatorConfig, defaultSkipper,
      hfind, hval, hf]

/-- C8 (witness for the amended theorem): the defaulting statement applied at
the concrete always-failing library and the formatter-less configuration. -/
theorem validator_defaults_amended_witness :
    ValidatorWithConfig libAllFail nilFmtConfig nextMark zeroLeegoContext
        = ValidatorWithConfig libAllFail
            { nilFmtConfig with Skipper := some defaultSkipper } nextMark zeroLeegoContext
    ∧ ValidatorWithConfig libAllFail nilFmtConfig nextMark zeroLeegoContext = none :=
  ⟨(validator_defaults_amended libAllFail nilFmtConfig nextMark zeroLeegoContext).1 rfl,
   (validator_defaults_amended libAllFail nilFmtConfig nextMark zeroLeegoContext).2.2.2
      rfl rfl vEx (GoError.errMsg "bad") rfl rfl⟩

/-- C9: `Redirect code url` returns the sentinel `ErrInvalidRedirectCode`
exactly when `code` lies outside `300..307`, and in that case the context —
in particular its response, headers and status — is completely unchanged;
`File path` returns the sentinel `ErrNotFound` whenever the file cannot be
opened. -/
theorem redirect_file_sentinels (std : StdLib) (os : OsLib) (c : leegoContext)
    (code : Int) (url : String) (path : String) :
    ((c.Redirect code url).1 = some GoError.errInvalidRedirectCode
        ↔ (code < 300 ∨ 307 < code))
    ∧ ((code < 300 ∨ 307 < code) →
        c.Redirect code url = (some GoError.errInvalidRedirectCode, c))
    ∧ (os.openFile path = none →
        leegoContext.File std os c path = some (some GoError.errNotFound, c)) := by
  refine ⟨?_, fun h => ?_, fun hopen => ?_⟩
  · by_cases h : code < 300 ∨ 307 < code
    · simp [leegoContext.Redirect, StatusMultiplleegoices, StatusTemporaryRedirect, h]
    · simp only [leegoContext.Redirect, StatusMultiplleegoices, StatusTemporaryRedirect,
        if_neg h]
      constructor
      · intro habs
        exact absurd habs (by simp [LeegoError])
      · intro habs
        exact absurd habs h
  · simp [leegoContext.Redirect, StatusMultiplleegoices, StatusTemporaryRedirect, h]
  · simp [leegoContext.File, hopen]

/-- A concrete standard-library bundle for the witnesses. -/
def stdEx : StdLib :=
  { parseHTTPTime := fun _ => none
    formatHTTPTime := fun _ => ""
    typeByExtension := fun _ => ""
    ext := fun _ => "" }

/-- A concrete filesystem with nothing to open. -/
def osEmpty : OsLib :=
  { openFile := fun _ => none
    joinPath := fun a b => a ++ "/" ++ b }

/-- C9 (witness): `Redirect` with status 200 refuses with the sentinel and an
unchanged context, and `File` over a filesystem with nothing to open returns
`ErrNotFound`, at concrete instances. -/
theorem redirect_file_sentinels_witness :
    zeroLeegoContext.Redirect 200 "/new" = (some GoError.errInvalidRedirectCode,
        zeroLeegoContext)
    ∧ leegoContext.File stdEx osEmpty zeroLeegoContext "/missing"
        = some (some GoError.errNotFound, zeroLeegoContext) :=
  ⟨(redirect_file_sentinels stdEx osEmpty zeroLeegoContext 200 "/new" "/missing").2.1
      (Or.inl (by decide)),
   (redirect_file_sentinels stdEx osEmpty zeroLeegoContext 200 "/new" "/missing").2.2 rfl⟩
